import Mathlib

/-!
Verification of the `ContainerApp` deployment component
(`src/components/container-app/__main__.py`) against its natural-language
specification.

The method `__init__` of the component is a planner: given the argument dictionary it
decides which cloud resources to request and how they depend on each other.
We embed that planning logic as a pure function `plan` from an argument
record to either a validation error or the ordered list of resource
requests, each request carrying the dependency edges induced by the
deferred values (`Output`s) its parameters reference in the source.

Python truthiness (`if vpc_id and public_subnet_ids:`, `if alb_cert_arn:`,
`if not app_path and not image:`) is modelled by `truthyS` / `truthyL`.
-/

/-- Python truthiness of an optional string: `None` and `""` are falsy. -/
def truthyS : Option String → Bool
  | none => false
  | some s => decide (s ≠ "")

/-- Python truthiness of an optional list: `None` and `[]` are falsy. -/
def truthyL : Option (List String) → Bool
  | none => false
  | some l => decide (l ≠ [])

/-- The kinds of resource requests the component can emit
(one per `aws.*` constructor call in the source). -/
inductive RKind where
  | Network
  | InternetGateway
  | RouteTable
  | Subnet
  | RouteTableAssociation
  | SecurityGroup
  | Cluster
  | LoadBalancer
  | TargetGroup
  | Listener
  | IamRole
  | RolePolicyAttachment
  | IamPolicy
  | LogGroup
  | Secret
  | SecretVersion
  | EcrRepository
  | ImageBuild
  | TaskDefinition
  | Service
deriving DecidableEq, Repr

/-- Default action of a planned load-balancer listener
(source lines 182, 190-193, 202). -/
inductive LAction where
  | forward (targetGroup : String)
  | redirect (protocol : String) (port : String) (statusCode : String)
deriving DecidableEq, Repr

/-- A node of the planned resource graph.  `deps` lists the names of the
other requests whose deferred outputs are referenced by the parameters of
this request.
`listenPort` / `protocol` / `action` / `certificate` record listener and
target-group parameters, `availabilityZone` the subnet placement, and
`subnetParams` the literal subnet ids when an existing network is bound. -/
structure Request where
  kind : RKind
  name : String
  deps : List String
  listenPort : Option Nat
  protocol : Option String
  action : Option LAction
  certificate : Option String
  availabilityZone : Option String
  subnetParams : Option (List String)
deriving DecidableEq, Repr

/-- Plain request: only kind, name and dependencies. -/
def req (k : RKind) (n : String) (d : List String) : Request :=
  ⟨k, n, d, none, none, none, none, none, none⟩

/-- Request with a port parameter (the target group, source line 157). -/
def reqPort (k : RKind) (n : String) (d : List String) (p : Nat) : Request :=
  ⟨k, n, d, some p, none, none, none, none, none⟩

/-- Listener request (source lines 176-205). -/
def reqListener (n : String) (d : List String) (p : Nat) (proto : String)
    (a : LAction) (cert : Option String) : Request :=
  ⟨.Listener, n, d, some p, some proto, some a, cert, none, none⟩

/-- Subnet request placed in an availability zone (source lines 111-118). -/
def reqAz (k : RKind) (n : String) (d : List String) (az : String) : Request :=
  ⟨k, n, d, none, none, none, none, some az, none⟩

/-- Request carrying the literal subnet-id parameters (load balancer and
service when an existing network is bound, source lines 151 and 345). -/
def reqSubnets (k : RKind) (n : String) (d : List String)
    (sp : Option (List String)) : Request :=
  ⟨k, n, d, none, none, none, none, none, sp⟩

/-- The `ContainerAppArgs` TypedDict (source lines 9-22).  `env` and
`secrets` are association lists in Python-dict insertion order. -/
structure ContainerAppArgs where
  app_path : Option String
  app_port : Nat
  cpu : Option Nat
  memory : Option Nat
  desired_count : Option Nat
  vpc_id : Option String
  public_subnet_ids : Option (List String)
  alb_cert_arn : Option String
  env : List (String × String)
  secrets : List (String × String)
  owner : Option String
  image : Option String
deriving DecidableEq, Repr

/-- The one construction-time validation error the component raises
(`ValueError`, source lines 53-55). -/
inductive PlanError where
  | invalidDescriptor
deriving DecidableEq, Repr

/-- Secrets-manager requests: one `Secret` plus one `SecretVersion` per
entry of `secrets`, in insertion order (source lines 66-79). -/
def secretRequests (secrets : List (String × String)) : List Request :=
  secrets.flatMap (fun kv =>
    [req .Secret kv.1 [], req .SecretVersion (kv.1 ++ "-version") [kv.1]])

/-- Name of the i-th created subnet (source line 111, `i+1`-based). -/
def subnetName (name : String) (i : Nat) : String :=
  name ++ "-subnet-" ++ toString (i + 1)

/-- Requests emitted when a new network is created: VPC, internet gateway,
route table, and — for each of the first two availability zones — a subnet
plus its route-table association (source lines 90-124). -/
def networkRequests (name : String) (azs : List String) : List Request :=
  [req .Network (name ++ "-vpc") [],
   req .InternetGateway (name ++ "-igw") [name ++ "-vpc"],
   req .RouteTable (name ++ "-public-rt") [name ++ "-vpc", name ++ "-igw"]]
  ++ (azs.take 2).enum.flatMap (fun p =>
      [reqAz .Subnet (subnetName name p.1) [name ++ "-vpc"] p.2,
       req .RouteTableAssociation (subnetName name p.1 ++ "-assoc")
         [subnetName name p.1, name ++ "-public-rt"]])

/-- The resource requests `ContainerApp.__init__` emits after validation,
in source order (source lines 57-359), with the dependency edges induced
by the deferred values their parameters reference.  `azs` is the
availability-zone list returned by the provisioning engine
(`aws.get_availability_zones()`, source line 108). -/
def planList (name : String) (a : ContainerAppArgs) (azs : List String) :
    List Request :=
  let useExisting := truthyS a.vpc_id && truthyL a.public_subnet_ids
    let vpcDep : List String := if useExisting then [] else [name ++ "-vpc"]
    let subnetDeps : List String :=
      if useExisting then []
      else (azs.take 2).enum.map (fun p => subnetName name p.1)
    let subnetParams : Option (List String) :=
      if useExisting then some (a.public_subnet_ids.getD []) else none
    let networkReqs := if useExisting then [] else networkRequests name azs
    let listenerReqs :=
      if truthyS a.alb_cert_arn then
        [reqListener (name ++ "-https-listener")
           [name ++ "-lb", name ++ "-tg"] 443 "HTTPS"
           (.forward (name ++ "-tg")) a.alb_cert_arn,
         reqListener (name ++ "-http-listener") [name ++ "-lb"] 80 "HTTP"
           (.redirect "HTTPS" "443" "HTTP_301") none]
      else
        [reqListener (name ++ "-http-listener")
           [name ++ "-lb", name ++ "-tg"] 80 "HTTP"
           (.forward (name ++ "-tg")) none]
    let secretPolicyReqs :=
      if a.secrets.isEmpty then []
      else
        [req .IamPolicy (name ++ "-secrets-manager-policy")
           (a.secrets.map Prod.fst),
         req .RolePolicyAttachment
           (name ++ "-secrets-manager-policy-attachment")
           [name ++ "-task-exec-role", name ++ "-secrets-manager-policy"]]
    let imageReqs :=
      if truthyS a.app_path then
        [req .EcrRepository (name ++ "-repo") [],
         req .ImageBuild (name ++ "-image") [name ++ "-repo"]]
      else []
    let imageDeps :=
      if truthyS a.app_path then [name ++ "-repo", name ++ "-image"] else []
    secretRequests a.secrets
      ++ networkReqs
      ++ [req .SecurityGroup (name ++ "-web-sg") vpcDep,
          req .Cluster (name ++ "-cluster") [],
          reqSubnets .LoadBalancer (name ++ "-lb")
            ((name ++ "-web-sg") :: subnetDeps) subnetParams,
          reqPort .TargetGroup (name ++ "-tg") vpcDep a.app_port]
      ++ listenerReqs
      ++ [req .IamRole (name ++ "-task-exec-role") [],
          req .RolePolicyAttachment (name ++ "-task-exec-policy")
            [name ++ "-task-exec-role"]]
      ++ secretPolicyReqs
      ++ [req .LogGroup (name ++ "-logs") []]
      ++ imageReqs
      ++ [req .TaskDefinition (name ++ "-task")
            ([name ++ "-task-exec-role", name ++ "-logs"]
              ++ imageDeps ++ a.secrets.map Prod.fst),
          reqSubnets .Service (name ++ "-service")
            ([name ++ "-cluster", name ++ "-task", name ++ "-tg",
              name ++ "-web-sg"] ++ subnetDeps ++ [name ++ "-lb"])
            subnetParams]

/-- The planner `ContainerApp.__init__`: the construction-time validation
(source lines 53-55, raised before any resource request is issued)
followed by the emission of the request list. -/
def plan (name : String) (a : ContainerAppArgs) (azs : List String) :
    Except PlanError (List Request) :=
  if ¬ truthyS a.app_path ∧ ¬ truthyS a.image then
    .error .invalidDescriptor
  else
    .ok (planList name a azs)

/-- The request list of a successful plan (`[]` when planning failed). -/
def planOk (name : String) (a : ContainerAppArgs) (azs : List String) :
    List Request :=
  match plan name a azs with
  | .ok l => l
  | .error _ => []

/-- Count of planned requests of a given kind. -/
def countKind (l : List Request) (k : RKind) : Nat :=
  l.countP (fun r => r.kind == k)

/-- The planned requests of a given kind, in plan order. -/
def filterKind (l : List Request) (k : RKind) : List Request :=
  l.filter (fun r => r.kind == k)

lemma planOk_eq_planList (name : String) (a : ContainerAppArgs)
    (azs : List String) (h : truthyS a.app_path = true ∨ truthyS a.image = true) :
    planOk name a azs = planList name a azs := by
  rcases h with h | h <;> simp [planOk, plan, h]

lemma secretRequests_kind {s : List (String × String)} {r : Request}
    (h : r ∈ secretRequests s) :
    r.kind = .Secret ∨ r.kind = .SecretVersion := by
  rw [secretRequests, List.mem_flatMap] at h
  obtain ⟨kv, -, hr⟩ := h
  simp only [List.mem_cons, List.mem_singleton, List.not_mem_nil] at hr
  rcases hr with rfl | rfl | h
  · exact Or.inl rfl
  · exact Or.inr rfl
  · exact h.elim

lemma networkRequests_kind {name : String} {azs : List String} {r : Request}
    (h : r ∈ networkRequests name azs) :
    r.kind = .Network ∨ r.kind = .InternetGateway ∨ r.kind = .RouteTable ∨
      r.kind = .Subnet ∨ r.kind = .RouteTableAssociation := by
  rw [networkRequests, List.mem_append] at h
  rcases h with h | h
  · simp only [List.mem_cons, List.mem_singleton, List.not_mem_nil] at h
    rcases h with rfl | rfl | rfl | h
    · exact Or.inl rfl
    · exact Or.inr (Or.inl rfl)
    · exact Or.inr (Or.inr (Or.inl rfl))
    · exact h.elim
  · rw [List.mem_flatMap] at h
    obtain ⟨p, -, hr⟩ := h
    simp only [List.mem_cons, List.mem_singleton, List.not_mem_nil] at hr
    rcases hr with rfl | rfl | h
    · exact Or.inr (Or.inr (Or.inr (Or.inl rfl)))
    · exact Or.inr (Or.inr (Or.inr (Or.inr rfl)))
    · exact h.elim

lemma countKind_secretRequests (s : List (String × String)) (k : RKind)
    (h1 : k ≠ RKind.Secret) (h2 : k ≠ RKind.SecretVersion) :
    countKind (secretRequests s) k = 0 := by
  rw [countKind, List.countP_eq_zero]
  intro r hr
  rcases secretRequests_kind hr with h | h <;>
    simp only [h, beq_iff_eq] <;> intro e
  · exact h1 e.symm
  · exact h2 e.symm

lemma countKind_networkRequests (name : String) (azs : List String)
    (k : RKind) (h1 : k ≠ RKind.Network) (h2 : k ≠ RKind.InternetGateway)
    (h3 : k ≠ RKind.RouteTable) (h4 : k ≠ RKind.Subnet)
    (h5 : k ≠ RKind.RouteTableAssociation) :
    countKind (networkRequests name azs) k = 0 := by
  rw [countKind, List.countP_eq_zero]
  intro r hr
  rcases networkRequests_kind hr with h | h | h | h | h <;>
    simp only [h, beq_iff_eq] <;> intro e
  · exact h1 e.symm
  · exact h2 e.symm
  · exact h3 e.symm
  · exact h4 e.symm
  · exact h5 e.symm

lemma filterKind_secretRequests (s : List (String × String)) (k : RKind)
    (h1 : k ≠ RKind.Secret) (h2 : k ≠ RKind.SecretVersion) :
    filterKind (secretRequests s) k = [] := by
  rw [filterKind, List.filter_eq_nil_iff]
  intro r hr
  rcases secretRequests_kind hr with h | h <;>
    simp only [h, beq_iff_eq] <;> intro e
  · exact h1 e.symm
  · exact h2 e.symm

lemma filterKind_networkRequests (name : String) (azs : List String)
    (k : RKind) (h1 : k ≠ RKind.Network) (h2 : k ≠ RKind.InternetGateway)
    (h3 : k ≠ RKind.RouteTable) (h4 : k ≠ RKind.Subnet)
    (h5 : k ≠ RKind.RouteTableAssociation) :
    filterKind (networkRequests name azs) k = [] := by
  rw [filterKind, List.filter_eq_nil_iff]
  intro r hr
  rcases networkRequests_kind hr with h | h | h | h | h <;>
    simp only [h, beq_iff_eq] <;> intro e
  · exact h1 e.symm
  · exact h2 e.symm
  · exact h3 e.symm
  · exact h4 e.symm
  · exact h5 e.symm

lemma countKind_append (l1 l2 : List Request) (k : RKind) :
    countKind (l1 ++ l2) k = countKind l1 k + countKind l2 k :=
  List.countP_append _ l1 l2

lemma countKind_nil (k : RKind) : countKind [] k = 0 := rfl

lemma countKind_cons (r : Request) (l : List Request) (k : RKind) :
    countKind (r :: l) k =
      countKind l k + (if r.kind == k then 1 else 0) :=
  List.countP_cons _ r l

/-- C1 (amended).  The construction-time validation (source lines 53-55)
fails — before any resource request is issued — exactly when the build
context and the prebuilt image reference are both unset; a descriptor
with both set is accepted, and the build context takes precedence (the
image-build branch is planned). -/
theorem spec_C1 (name : String) (a : ContainerAppArgs) (azs : List String) :
    (truthyS a.app_path = false → truthyS a.image = false →
      plan name a azs = .error .invalidDescriptor)
    ∧ (truthyS a.app_path = true ∨ truthyS a.image = true →
      (plan name a azs).isOk = true)
    ∧ (truthyS a.app_path = true →
      countKind (planOk name a azs) .ImageBuild = 1) := by
  refine ⟨fun h1 h2 => ?_, fun h => ?_, fun h => ?_⟩
  · simp [plan, h1, h2]
  · rcases h with h | h <;> simp [plan, h, Except.isOk, Except.toBool]
  · rw [planOk_eq_planList name a azs (Or.inl h)]
    have hsr := countKind_secretRequests a.secrets .ImageBuild
      (by decide) (by decide)
    have hnr := countKind_networkRequests name azs .ImageBuild
      (by decide) (by decide) (by decide) (by decide) (by decide)
    cases hU : (truthyS a.vpc_id && truthyL a.public_subnet_ids) <;>
    cases hC : truthyS a.alb_cert_arn <;>
    cases hS : a.secrets.isEmpty <;>
      simp [planList, hU, hC, hS, h, countKind_append, countKind_cons,
        countKind_nil, hsr, hnr, req, reqListener, reqPort, reqSubnets]

/-- C1 counterexample: a descriptor with BOTH the build context and the
prebuilt image reference set is accepted by the construction-time
validation, so the claim "both set fails with InvalidDescriptor" is
false on the code. -/
theorem spec_C1_counterexample :
    (plan "app"
      ⟨some "./app", 8080, none, none, none, none, none, none, [], [],
        none, some "nginx:latest"⟩
      ["us-east-1a", "us-east-1b"]).isOk = true := by
  decide

/-- C1 witness: the amended theorem applied to a concrete descriptor with
neither source set (validation fails) and, via the other conjuncts, to a
build-context-only descriptor. -/
theorem spec_C1_witness :
    plan "app"
      ⟨none, 8080, none, none, none, none, none, none, [], [], none, none⟩
      ["us-east-1a", "us-east-1b"] = .error .invalidDescriptor
    ∧ countKind
        (planOk "app"
          ⟨some "./app", 80, none, none, none, none, none, none, [], [],
            none, none⟩
          ["us-east-1a", "us-east-1b"]) .ImageBuild = 1 :=
  ⟨(spec_C1 "app"
      ⟨none, 8080, none, none, none, none, none, none, [], [], none, none⟩
      ["us-east-1a", "us-east-1b"]).1 (by decide) (by decide),
   (spec_C1 "app"
      ⟨some "./app", 80, none, none, none, none, none, none, [], [],
        none, none⟩
      ["us-east-1a", "us-east-1b"]).2.2 (by decide)⟩

/-- C4.  When both an existing network id and a subnet id list are
supplied (Python-truthy, source line 85), the planned request list
contains zero Network, Subnet, InternetGateway and RouteTable creation
requests: the supplied network is bound directly. -/
theorem spec_C4 (name : String) (a : ContainerAppArgs) (azs : List String)
    (hsrc : truthyS a.app_path = true ∨ truthyS a.image = true)
    (h1 : truthyS a.vpc_id = true) (h2 : truthyL a.public_subnet_ids = true) :
    countKind (planOk name a azs) .Network = 0
    ∧ countKind (planOk name a azs) .Subnet = 0
    ∧ countKind (planOk name a azs) .InternetGateway = 0
    ∧ countKind (planOk name a azs) .RouteTable = 0 := by
  rw [planOk_eq_planList name a azs hsrc]
  have hsr := fun k ha hb => countKind_secretRequests a.secrets k ha hb
  refine ⟨?_, ?_, ?_, ?_⟩ <;>
  · cases hC : truthyS a.alb_cert_arn <;>
    cases hS : a.secrets.isEmpty <;>
    cases hA : truthyS a.app_path <;>
      simp [planList, h1, h2, hC, hS, hA, countKind_append, countKind_cons,
        countKind_nil,
        hsr RKind.Network (by decide) (by decide),
        hsr RKind.Subnet (by decide) (by decide),
        hsr RKind.InternetGateway (by decide) (by decide),
        hsr RKind.RouteTable (by decide) (by decide),
        req, reqListener, reqPort, reqSubnets]

/-- C4 witness: the theorem applied to a concrete descriptor binding an
existing network. -/
theorem spec_C4_witness :
    countKind
      (planOk "app"
        ⟨none, 80, none, none, none, some "vpc-123",
          some ["subnet-1", "subnet-2"], none, [], [], none,
          some "nginx:latest"⟩
        ["us-east-1a", "us-east-1b"]) .Network = 0 :=
  (spec_C4 "app"
    ⟨none, 80, none, none, none, some "vpc-123",
      some ["subnet-1", "subnet-2"], none, [], [], none,
      some "nginx:latest"⟩
    ["us-east-1a", "us-east-1b"] (Or.inr (by decide)) (by decide)
    (by decide)).1

lemma filterKind_append (l1 l2 : List Request) (k : RKind) :
    filterKind (l1 ++ l2) k = filterKind l1 k ++ filterKind l2 k :=
  List.filter_append l1 l2

lemma filterKind_nil (k : RKind) : filterKind [] k = [] := rfl

lemma filterKind_cons (r : Request) (l : List Request) (k : RKind) :
    filterKind (r :: l) k =
      if r.kind == k then r :: filterKind l k else filterKind l k :=
  List.filter_cons

lemma append_right_ne (n : String) {s t : String} (h : s ≠ t) :
    n ++ s ≠ n ++ t := by
  intro e
  apply h
  have e2 := congrArg String.data e
  rw [String.data_append, String.data_append] at e2
  exact String.ext (List.append_cancel_left e2)

lemma subnetName_eq (n : String) (i : Nat) :
    subnetName n i = n ++ ("-subnet-" ++ toString (i + 1)) := by
  rw [subnetName, String.append_assoc]

/-- C3.  The plan contains, when a TLS certificate reference is supplied
(Python-truthy, source line 175), exactly one HTTPS listener forwarding
to the target group and one HTTP listener redirecting to HTTPS with
status `HTTP_301`; otherwise exactly one HTTP listener forwarding
directly to the target group (source lines 175-205). -/
theorem spec_C3 (name : String) (a : ContainerAppArgs) (azs : List String)
    (hsrc : truthyS a.app_path = true ∨ truthyS a.image = true) :
    (truthyS a.alb_cert_arn = true →
      filterKind (planOk name a azs) .Listener =
        [reqListener (name ++ "-https-listener")
           [name ++ "-lb", name ++ "-tg"] 443 "HTTPS"
           (.forward (name ++ "-tg")) a.alb_cert_arn,
         reqListener (name ++ "-http-listener") [name ++ "-lb"] 80 "HTTP"
           (.redirect "HTTPS" "443" "HTTP_301") none])
    ∧ (truthyS a.alb_cert_arn = false →
      filterKind (planOk name a azs) .Listener =
        [reqListener (name ++ "-http-listener")
           [name ++ "-lb", name ++ "-tg"] 80 "HTTP"
           (.forward (name ++ "-tg")) none]) := by
  rw [planOk_eq_planList name a azs hsrc]
  have hf := filterKind_secretRequests a.secrets .Listener
    (by decide) (by decide)
  have hn := filterKind_networkRequests name azs .Listener
    (by decide) (by decide) (by decide) (by decide) (by decide)
  constructor <;> intro hC <;>
  · cases hU : (truthyS a.vpc_id && truthyL a.public_subnet_ids) <;>
    cases hS : a.secrets.isEmpty <;>
    cases hA : truthyS a.app_path <;>
      simp [planList, hU, hC, hS, hA, filterKind_append, filterKind_cons,
        filterKind_nil, hf, hn, req, reqListener, reqPort, reqSubnets]

/-- C3 witness: the theorem applied to one descriptor with a certificate
and one without. -/
theorem spec_C3_witness :
    filterKind
      (planOk "app"
        ⟨none, 80, none, none, none, none, none, some "arn:cert", [], [],
          none, some "nginx:latest"⟩
        ["us-east-1a", "us-east-1b"]) .Listener =
      [reqListener ("app" ++ "-https-listener") ["app" ++ "-lb", "app" ++ "-tg"]
         443 "HTTPS" (.forward ("app" ++ "-tg")) (some "arn:cert"),
       reqListener ("app" ++ "-http-listener") ["app" ++ "-lb"] 80 "HTTP"
         (.redirect "HTTPS" "443" "HTTP_301") none]
    ∧ filterKind
        (planOk "app"
          ⟨none, 80, none, none, none, none, none, none, [], [],
            none, some "nginx:latest"⟩
          ["us-east-1a", "us-east-1b"]) .Listener =
        [reqListener ("app" ++ "-http-listener")
           ["app" ++ "-lb", "app" ++ "-tg"] 80 "HTTP"
           (.forward ("app" ++ "-tg")) none] :=
  ⟨(spec_C3 "app"
      ⟨none, 80, none, none, none, none, none, some "arn:cert", [], [],
        none, some "nginx:latest"⟩
      ["us-east-1a", "us-east-1b"] (Or.inr (by decide))).1 (by decide),
   (spec_C3 "app"
      ⟨none, 80, none, none, none, none, none, none, [], [],
        none, some "nginx:latest"⟩
      ["us-east-1a", "us-east-1b"] (Or.inr (by decide))).2 (by decide)⟩

lemma truthyS_none : truthyS none = false := rfl

lemma truthyL_none : truthyL none = false := rfl

lemma networkRequests_cons2 (name az0 az1 : String) (rest : List String) :
    networkRequests name (az0 :: az1 :: rest) =
      [req .Network (name ++ "-vpc") [],
       req .InternetGateway (name ++ "-igw") [name ++ "-vpc"],
       req .RouteTable (name ++ "-public-rt") [name ++ "-vpc", name ++ "-igw"],
       reqAz .Subnet (subnetName name 0) [name ++ "-vpc"] az0,
       req .RouteTableAssociation (subnetName name 0 ++ "-assoc")
         [subnetName name 0, name ++ "-public-rt"],
       reqAz .Subnet (subnetName name 1) [name ++ "-vpc"] az1,
       req .RouteTableAssociation (subnetName name 1 ++ "-assoc")
         [subnetName name 1, name ++ "-public-rt"]] := rfl

/-- C5.  With no network supplied, exactly two subnet-creation requests
are planned — one per each of the first two availability zones — and each
depends only on the VPC (in particular not on the route table and not on
the other subnet), so the two subnets may be created in either order
(source lines 108-124). -/
theorem spec_C5 (name : String) (a : ContainerAppArgs)
    (az0 az1 : String) (rest : List String)
    (hsrc : truthyS a.app_path = true ∨ truthyS a.image = true)
    (h1 : a.vpc_id = none) (h2 : a.public_subnet_ids = none) :
    filterKind (planOk name a (az0 :: az1 :: rest)) .Subnet =
      [reqAz .Subnet (subnetName name 0) [name ++ "-vpc"] az0,
       reqAz .Subnet (subnetName name 1) [name ++ "-vpc"] az1]
    ∧ (∀ r ∈ filterKind (planOk name a (az0 :: az1 :: rest)) .Subnet,
        r.deps ⊆ [name ++ "-vpc", name ++ "-public-rt"]
        ∧ subnetName name 0 ∉ r.deps ∧ subnetName name 1 ∉ r.deps) := by
  have hfilter : filterKind (planOk name a (az0 :: az1 :: rest)) .Subnet =
      [reqAz .Subnet (subnetName name 0) [name ++ "-vpc"] az0,
       reqAz .Subnet (subnetName name 1) [name ++ "-vpc"] az1] := by
    rw [planOk_eq_planList name a (az0 :: az1 :: rest) hsrc]
    have hf := filterKind_secretRequests a.secrets .Subnet
      (by decide) (by decide)
    cases hC : truthyS a.alb_cert_arn <;>
    cases hS : a.secrets.isEmpty <;>
    cases hA : truthyS a.app_path <;>
      simp [planList, h1, truthyS_none, hC, hS, hA, networkRequests_cons2,
        filterKind_append, filterKind_cons, filterKind_nil, hf,
        req, reqListener, reqPort, reqSubnets, reqAz]
  refine ⟨hfilter, ?_⟩
  intro r hr
  rw [hfilter] at hr
  have hvpc0 : subnetName name 0 ∉ [name ++ "-vpc"] := by
    rw [subnetName_eq]
    intro hm
    rcases List.mem_singleton.1 hm with e
    exact append_right_ne name (by decide) e
  have hvpc1 : subnetName name 1 ∉ [name ++ "-vpc"] := by
    rw [subnetName_eq]
    intro hm
    rcases List.mem_singleton.1 hm with e
    exact append_right_ne name (by decide) e
  have hsub : ([name ++ "-vpc"] : List String) ⊆
      [name ++ "-vpc", name ++ "-public-rt"] := by
    intro x hx
    rcases List.mem_singleton.1 hx with rfl
    exact List.mem_cons_self _ _
  rcases List.mem_cons.1 hr with rfl | hr
  · exact ⟨hsub, hvpc0, hvpc1⟩
  rcases List.mem_cons.1 hr with rfl | hr
  · exact ⟨hsub, hvpc0, hvpc1⟩
  · exact absurd hr (List.not_mem_nil r)

/-- C5 witness: the theorem applied to a concrete descriptor with no
network supplied and two availability zones. -/
theorem spec_C5_witness :
    filterKind
      (planOk "app"
        ⟨none, 80, none, none, none, none, none, none, [], [],
          none, some "nginx:latest"⟩
        ["us-east-1a", "us-east-1b"]) .Subnet =
      [reqAz .Subnet (subnetName "app" 0) ["app" ++ "-vpc"] "us-east-1a",
       reqAz .Subnet (subnetName "app" 1) ["app" ++ "-vpc"] "us-east-1b"] :=
  (spec_C5 "app"
    ⟨none, 80, none, none, none, none, none, none, [], [],
      none, some "nginx:latest"⟩
    "us-east-1a" "us-east-1b" [] (Or.inr (by decide)) rfl rfl).1

/-- The descriptor with its network fields replaced (used to compare the
behaviour of partially supplied networks with absent ones). -/
def withNetwork (a : ContainerAppArgs) (v : Option String)
    (s : Option (List String)) : ContainerAppArgs :=
  ⟨a.app_path, a.app_port, a.cpu, a.memory, a.desired_count, v, s,
    a.alb_cert_arn, a.env, a.secrets, a.owner, a.image⟩

/-- C10.  If exactly one of the existing-network id and the subnet id
list is supplied (Python-truthy) and the other absent, the component
behaves exactly as when neither is supplied — the plan is identical,
and it creates one VPC, one internet gateway, one route table and two
subnets; the partially supplied value is never used (source line 85). -/
theorem spec_C10 (name : String) (a : ContainerAppArgs) (azs : List String)
    (v : Option String) (s : Option (List String))
    (h : (truthyS v = true ∧ s = none) ∨ (v = none ∧ truthyL s = true)) :
    plan name (withNetwork a v s) azs = plan name (withNetwork a none none) azs
    ∧ (∀ az0 az1 rest, azs = az0 :: az1 :: rest →
        countKind (planList name (withNetwork a v s) azs) .Network = 1
        ∧ countKind (planList name (withNetwork a v s) azs)
            .InternetGateway = 1
        ∧ countKind (planList name (withNetwork a v s) azs) .RouteTable = 1
        ∧ countKind (planList name (withNetwork a v s) azs) .Subnet = 2) := by
  constructor
  · rcases h with ⟨h1, rfl⟩ | ⟨rfl, h2⟩ <;>
      simp [plan, planList, withNetwork, truthyS_none, truthyL_none]
  · intro az0 az1 rest haz
    subst haz
    have hsr := fun k ha hb =>
      countKind_secretRequests a.secrets k ha hb
    refine ⟨?_, ?_, ?_, ?_⟩ <;>
    · rcases h with ⟨h1, rfl⟩ | ⟨rfl, h2⟩ <;>
      cases hC : truthyS a.alb_cert_arn <;>
      cases hS : a.secrets.isEmpty <;>
      cases hA : truthyS a.app_path <;>
        simp [planList, withNetwork, truthyS_none, truthyL_none, hC, hS, hA,
          networkRequests_cons2,
          countKind_append, countKind_cons, countKind_nil,
          hsr RKind.Network (by decide) (by decide),
          hsr RKind.InternetGateway (by decide) (by decide),
          hsr RKind.RouteTable (by decide) (by decide),
          hsr RKind.Subnet (by decide) (by decide),
          req, reqListener, reqPort, reqSubnets, reqAz]

/-- C10 witness: the theorem applied to a descriptor supplying only the
network id (no subnet list). -/
theorem spec_C10_witness :
    plan "app"
      (withNetwork
        ⟨none, 80, none, none, none, none, none, none, [], [],
          none, some "nginx:latest"⟩
        (some "vpc-123") none)
      ["us-east-1a", "us-east-1b"] =
    plan "app"
      (withNetwork
        ⟨none, 80, none, none, none, none, none, none, [], [],
          none, some "nginx:latest"⟩
        none none)
      ["us-east-1a", "us-east-1b"] :=
  (spec_C10 "app"
    ⟨none, 80, none, none, none, none, none, none, [], [],
      none, some "nginx:latest"⟩
    ["us-east-1a", "us-east-1b"] (some "vpc-123") none
    (Or.inl ⟨by decide, rfl⟩)).1

/-- Output `self.url` (source lines 362-364): scheme chosen by the truthiness of
the certificate reference captured by the closure. -/
def url (alb_cert_arn : Option String) (dns : String) : String :=
  if truthyS alb_cert_arn then "https://" ++ dns else "http://" ++ dns

/-- C7.  The published service URL is `https://` + DNS name when a TLS
certificate reference is configured and `http://` + DNS name otherwise;
in particular for `example-dns`. -/
theorem spec_C7 (dns : String) (cert : Option String) :
    (truthyS cert = true → url cert dns = "https://" ++ dns)
    ∧ (truthyS cert = false → url cert dns = "http://" ++ dns)
    ∧ url (some "arn:cert") "example-dns" = "https://example-dns"
    ∧ url none "example-dns" = "http://example-dns" := by
  refine ⟨fun h => ?_, fun h => ?_, by decide, by decide⟩
  · simp [url, h]
  · simp [url, h]

/-- C7 witness: the theorem applied with a configured certificate. -/
theorem spec_C7_witness :
    url (some "arn:cert") "example-dns" = "https://" ++ "example-dns" :=
  (spec_C7 "example-dns" (some "arn:cert")).1 (by decide)

/-- Behaviour of `decoded.split(":")` in Python: every colon separates, an empty string
yields `[""]`. -/
def splitColon : List Char → List (List Char)
  | [] => [[]]
  | c :: cs =>
    let r := splitColon cs
    if c = ':' then [] :: r
    else
      match r with
      | [] => [[c]]
      | g :: gs => (c :: g) :: gs

/-- The split `decoded.split(":")` on strings (source line 272). -/
def pySplitColon (s : String) : List String :=
  (splitColon s.data).map (fun g => String.mk g)

/-- Arguments `docker_build.RegistryArgs` (source lines 275-279). -/
structure RegistryArgs where
  address : String
  username : String
  password : String
deriving DecidableEq, Repr

/-- Function `get_registry_info` (source lines 269-279), taking the already
base64-decoded authorization token: splits it on `":"`, raises when the
result is not exactly two parts, otherwise builds the registry arguments
from proxy endpoint, username and password. -/
def get_registry_info (proxy_endpoint : String) (decoded : String) :
    Except String RegistryArgs :=
  let parts := pySplitColon decoded
  if parts.length ≠ 2 then .error "Invalid credentials"
  else .ok ⟨proxy_endpoint, parts.getD 0 "", parts.getD 1 ""⟩

/-- C9.  The registry credential exchange fails exactly when the decoded
authorization token does not split on `":"` into exactly two parts; when
it does, it succeeds with the first part as username and the second as
password. -/
theorem spec_C9 (ep decoded : String) :
    ((pySplitColon decoded).length ≠ 2 →
      get_registry_info ep decoded = .error "Invalid credentials")
    ∧ (∀ u p, pySplitColon decoded = [u, p] →
      get_registry_info ep decoded = .ok ⟨ep, u, p⟩) := by
  constructor
  · intro h
    simp [get_registry_info, h]
  · intro u p h
    simp [get_registry_info, h]

/-- C9 witness: the theorem applied to a well-formed and a malformed
decoded token. -/
theorem spec_C9_witness :
    get_registry_info "https://registry" "AWS:secretpw" =
      .ok ⟨"https://registry", "AWS", "secretpw"⟩
    ∧ get_registry_info "https://registry" "malformed" =
      .error "Invalid credentials"
    ∧ get_registry_info "https://registry" "a:b:c" =
      .error "Invalid credentials" :=
  ⟨(spec_C9 "https://registry" "AWS:secretpw").2 "AWS" "secretpw" (by decide),
   (spec_C9 "https://registry" "malformed").1 (by decide),
   (spec_C9 "https://registry" "a:b:c").1 (by decide)⟩

/-- Modelled from the spec: a DeferredValue (pulumi `Output`, provided by
the provisioning engine, not present under `src/`) observed through reads
at abstract times — `none` before resolution, `some v` once resolved. -/
def DeferredValue (α : Type) : Type := Nat → Option α

/-- Modelled from the spec: an already-resolved value (the literal
`aws_region` configuration string, source line 82). -/
def pureDV {α : Type} (a : α) : DeferredValue α := fun _ => some a

/-- Modelled from the spec: `pulumi.Output.all(x, y, z).apply(f)` — the
combination resolves exactly when all three inputs have resolved, and
then carries `f` applied to the resolved values. -/
def combine3 {α β γ δ : Type} (x : DeferredValue α) (y : DeferredValue β)
    (z : DeferredValue γ) (f : α → β → γ → δ) : DeferredValue δ := fun t =>
  match x t, y t, z t with
  | some a, some b, some c => some (f a b c)
  | _, _, _ => none

/-- The dashboard-locator format string (source line 368):
`args[0]` = region, `args[1]` = service name, `args[2]` = cluster name. -/
def metricsUrlFormat (region serviceName clusterName : String) : String :=
  "https://" ++ region ++ ".console.aws.amazon.com/ecs/home?region="
    ++ region ++ "#/clusters/" ++ clusterName ++ "/services/"
    ++ serviceName ++ "/metrics"

/-- Output `self.metrics_url` (source lines 367-369). -/
def metrics_url (region : String)
    (serviceName clusterName : DeferredValue String) :
    DeferredValue String :=
  combine3 (pureDV region) serviceName clusterName metricsUrlFormat

/-- C8.  Any read of `metrics_url` before both the service name and the
cluster name have resolved observes nothing (no partial or garbage
string), and once they have resolved it reads exactly the dashboard
locator built from the region and the two resolved names. -/
theorem spec_C8 (region : String)
    (serviceName clusterName : DeferredValue String) (t : Nat) :
    (serviceName t = none ∨ clusterName t = none →
      metrics_url region serviceName clusterName t = none)
    ∧ (∀ s c, serviceName t = some s → clusterName t = some c →
      metrics_url region serviceName clusterName t =
        some (metricsUrlFormat region s c)) := by
  constructor
  · rintro (h | h)
    · simp [metrics_url, combine3, pureDV, h]
    · cases hy : serviceName t <;>
        simp [metrics_url, combine3, pureDV, h, hy]
  · intro s c hs hc
    simp [metrics_url, combine3, pureDV, hs, hc]

/-- C8 witness: the theorem applied to deferred values that resolve at
times 5 and 3; reading at time 4 observes nothing, reading at time 6
observes the full dashboard locator. -/
theorem spec_C8_witness :
    metrics_url "us-east-1"
      (fun t => if 5 ≤ t then some "app-service" else none)
      (fun t => if 3 ≤ t then some "app-cluster" else none) 4 = none
    ∧ metrics_url "us-east-1"
        (fun t => if 5 ≤ t then some "app-service" else none)
        (fun t => if 3 ≤ t then some "app-cluster" else none) 6 =
        some (metricsUrlFormat "us-east-1" "app-service" "app-cluster") :=
  ⟨(spec_C8 "us-east-1"
      (fun t => if 5 ≤ t then some "app-service" else none)
      (fun t => if 3 ≤ t then some "app-cluster" else none) 4).1
      (Or.inl (by decide)),
   (spec_C8 "us-east-1"
      (fun t => if 5 ≤ t then some "app-service" else none)
      (fun t => if 3 ≤ t then some "app-cluster" else none) 6).2
      "app-service" "app-cluster" (by decide) (by decide)⟩

/-!
JSON model for the container-definition payload (`json.dumps` at source
lines 303-323 and the round-trip property of §6 of the specification).
Values are strings, naturals (the ports), booleans, arrays and objects;
objects keep their key order (Python dicts preserve insertion order).
Serialization escapes `"` and `\` inside strings; the parser is
fuel-indexed.
-/

inductive Json where
  | str : String → Json
  | nat : Nat → Json
  | bool : Bool → Json
  | arr : List Json → Json
  | obj : List (String × Json) → Json

/-- Escape one character of a JSON string body. -/
def escChar (c : Char) : List Char :=
  if c = '"' ∨ c = '\\' then ['\\', c] else [c]

/-- Escape a JSON string body. -/
def escStr : List Char → List Char
  | [] => []
  | c :: cs => escChar c ++ escStr cs

/-- Decimal digits of `n`, most significant first, prepended to `acc`
(fuel-indexed so that it evaluates by kernel reduction). -/
def natDigitsAux : Nat → Nat → List Char → List Char
  | 0, _, acc => acc
  | f + 1, n, acc =>
    if n < 10 then Nat.digitChar n :: acc
    else natDigitsAux f (n / 10) (Nat.digitChar (n % 10) :: acc)

/-- Decimal rendering of a natural number. -/
def renderNat (n : Nat) : List Char := natDigitsAux (n + 1) n []

mutual

/-- Serialize a JSON value (`json.dumps`, without whitespace). -/
def renderVal : Json → List Char
  | .str s => '"' :: (escStr s.data ++ ['"'])
  | .nat n => renderNat n
  | .bool b => if b then ['t', 'r', 'u', 'e'] else ['f', 'a', 'l', 's', 'e']
  | .arr [] => ['[', ']']
  | .arr (x :: xs) => '[' :: (renderVal x ++ (renderElems xs ++ [']']))
  | .obj [] => ['\x7b', '\x7d']
  | .obj (kv :: kvs) =>
      '\x7b' :: (renderMember kv ++ (renderMembers kvs ++ ['\x7d']))

/-- Serialize one object member as `"key":value`. -/
def renderMember : String × Json → List Char
  | (k, v) => '"' :: (escStr k.data ++ ('"' :: ':' :: renderVal v))

/-- Serialize the remaining array elements, each preceded by `,`. -/
def renderElems : List Json → List Char
  | [] => []
  | x :: xs => ',' :: (renderVal x ++ renderElems xs)

/-- Serialize the remaining object members, each preceded by `,`. -/
def renderMembers : List (String × Json) → List Char
  | [] => []
  | kv :: kvs => ',' :: (renderMember kv ++ renderMembers kvs)

end

mutual

/-- Structural size of a JSON value (fuel measure for the parser). -/
def sizeJ : Json → Nat
  | .str _ => 1
  | .nat _ => 1
  | .bool _ => 1
  | .arr xs => sizeL xs + 1
  | .obj kvs => sizeM kvs + 1

/-- Structural size of a list of JSON values. -/
def sizeL : List Json → Nat
  | [] => 0
  | x :: xs => sizeJ x + sizeL xs + 1

/-- Structural size of a list of object members. -/
def sizeM : List (String × Json) → Nat
  | [] => 0
  | kv :: kvs => sizeJ kv.2 + sizeM kvs + 1

end

/-- Parse a JSON string body after the opening quote, un-escaping
`\c` to `c`; returns the body and the remainder after the closing
quote. -/
def parseStrBody : List Char → Option (List Char × List Char)
  | [] => none
  | c :: cs =>
    if c = '"' then some ([], cs)
    else if c = '\\' then
      match cs with
      | [] => none
      | c2 :: cs2 =>
        match parseStrBody cs2 with
        | some (s, r) => some (c2 :: s, r)
        | none => none
    else
      match parseStrBody cs with
      | some (s, r) => some (c :: s, r)
      | none => none

/-- Consume leading decimal digits, folding them onto `acc`. -/
def parseNatAux : List Char → Nat → Nat × List Char
  | [], acc => (acc, [])
  | c :: cs, acc =>
    if c.isDigit then parseNatAux cs (acc * 10 + (c.toNat - 48))
    else (acc, c :: cs)

mutual

/-- Parse one JSON value (fuel-indexed). -/
def parseVal : Nat → List Char → Option (Json × List Char)
  | 0, _ => none
  | _ + 1, [] => none
  | f + 1, c :: cs =>
    if c = '"' then
      match parseStrBody cs with
      | some (s, r) => some (.str (String.mk s), r)
      | none => none
    else if c = '[' then
      match cs with
      | [] => none
      | c2 :: cs2 =>
        if c2 = ']' then some (.arr [], cs2)
        else
          match parseVal f (c2 :: cs2) with
          | some (v, r) =>
            match parseElems f r with
            | some (vs, r2) => some (.arr (v :: vs), r2)
            | none => none
          | none => none
    else if c = '\x7b' then
      match cs with
      | [] => none
      | c2 :: cs2 =>
        if c2 = '\x7d' then some (.obj [], cs2)
        else
          match parseMember f (c2 :: cs2) with
          | some (kv, r) =>
            match parseMembers f r with
            | some (kvs, r2) => some (.obj (kv :: kvs), r2)
            | none => none
          | none => none
    else if c = 't' then
      match cs with
      | 'r' :: 'u' :: 'e' :: r => some (.bool true, r)
      | _ => none
    else if c = 'f' then
      match cs with
      | 'a' :: 'l' :: 's' :: 'e' :: r => some (.bool false, r)
      | _ => none
    else if c.isDigit then
      some (.nat (parseNatAux (c :: cs) 0).1, (parseNatAux (c :: cs) 0).2)
    else none

/-- Parse the array elements after the first, up to the closing `]`. -/
def parseElems : Nat → List Char → Option (List Json × List Char)
  | 0, _ => none
  | _ + 1, [] => none
  | f + 1, c :: cs =>
    if c = ']' then some ([], cs)
    else if c = ',' then
      match parseVal f cs with
      | some (v, r) =>
        match parseElems f r with
        | some (vs, r2) => some (v :: vs, r2)
        | none => none
      | none => none
    else none

/-- Parse one object member `"key":value`. -/
def parseMember : Nat → List Char → Option ((String × Json) × List Char)
  | 0, _ => none
  | _ + 1, [] => none
  | f + 1, c :: cs =>
    if c = '"' then
      match parseStrBody cs with
      | some (k, r) =>
        match r with
        | ':' :: r2 =>
          match parseVal f r2 with
          | some (v, r3) => some ((String.mk k, v), r3)
          | none => none
        | _ => none
      | none => none
    else none

/-- Parse the object members after the first, up to the closing brace. -/
def parseMembers : Nat → List Char →
    Option (List (String × Json) × List Char)
  | 0, _ => none
  | _ + 1, [] => none
  | f + 1, c :: cs =>
    if c = '\x7d' then some ([], cs)
    else if c = ',' then
      match parseMember f cs with
      | some (kv, r) =>
        match parseMembers f r with
        | some (kvs, r2) => some (kv :: kvs, r2)
        | none => none
      | none => none
    else none

end

/-- Serialization as in `json.dumps`. -/
def jsonDumps (v : Json) : String := String.mk (renderVal v)

/-- Parsing as in `json.loads`, requiring the whole input to be consumed. -/
def jsonLoads (s : String) : Option Json :=
  match parseVal (s.data.length + 1) s.data with
  | some (v, []) => some v
  | _ => none

/-- The container-definition payload composed at source lines 303-323:
a JSON array holding exactly one container object.  `env` and
`secret_arns_map` are association lists in Python-dict insertion order
(`args[2].items()`, `args[3].items()`). -/
def container_def (image_url : String) (log_group_name : String)
    (env : List (String × String)) (secret_arns_map : List (String × String))
    (app_port : Nat) (aws_region : String) : Json :=
  .arr [.obj [
    ("name", .str "app"),
    ("image", .str image_url),
    ("essential", .bool true),
    ("portMappings", .arr [.obj [
      ("containerPort", .nat app_port),
      ("hostPort", .nat app_port),
      ("protocol", .str "tcp")]]),
    ("environment", .arr (env.map (fun kv =>
      .obj [("name", .str kv.1), ("value", .str kv.2)]))),
    ("secrets", .arr (secret_arns_map.map (fun kv =>
      .obj [("name", .str kv.1), ("valueFrom", .str kv.2)]))),
    ("logConfiguration", .obj [
      ("logDriver", .str "awslogs"),
      ("options", .obj [
        ("awslogs-group", .str log_group_name),
        ("awslogs-region", .str aws_region),
        ("awslogs-stream-prefix", .str "app")])])]]

/-- A character list is a valid right-delimiter for a rendered number:
empty, or not starting with a digit. -/
def delimB : List Char → Bool
  | [] => true
  | c :: _ => !c.isDigit

lemma digitChar_isDigit {k : Nat} (h : k < 10) :
    (Nat.digitChar k).isDigit = true := by
  interval_cases k <;> decide

lemma digitChar_val {k : Nat} (h : k < 10) :
    (Nat.digitChar k).toNat - 48 = k := by
  interval_cases k <;> decide

lemma natDigitsAux_all_digits :
    ∀ (f n : Nat) (acc : List Char),
      (∀ c ∈ acc, c.isDigit = true) →
      ∀ c ∈ natDigitsAux f n acc, c.isDigit = true := by
  intro f
  induction f with
  | zero => intro n acc hacc c hc; exact hacc c hc
  | succ f ih =>
    intro n acc hacc c hc
    rw [natDigitsAux] at hc
    by_cases hn : n < 10
    · rw [if_pos hn] at hc
      rcases List.mem_cons.1 hc with rfl | hc
      · exact digitChar_isDigit hn
      · exact hacc c hc
    · rw [if_neg hn] at hc
      refine ih (n / 10) _ ?_ c hc
      intro c2 hc2
      rcases List.mem_cons.1 hc2 with rfl | hc2
      · exact digitChar_isDigit (Nat.mod_lt n (by omega))
      · exact hacc c2 hc2

lemma natDigitsAux_ne_nil :
    ∀ (f n : Nat) (acc : List Char), 0 < f ∨ acc ≠ [] →
      natDigitsAux f n acc ≠ [] := by
  intro f
  induction f with
  | zero =>
    intro n acc h
    rcases h with h | h
    · omega
    · exact h
  | succ f ih =>
    intro n acc h
    rw [natDigitsAux]
    by_cases hn : n < 10
    · rw [if_pos hn]; exact List.cons_ne_nil _ _
    · rw [if_neg hn]
      exact ih (n / 10) _ (Or.inr (List.cons_ne_nil _ _))

lemma renderNat_all_digits (n : Nat) :
    ∀ c ∈ renderNat n, c.isDigit = true :=
  natDigitsAux_all_digits (n + 1) n []
    (fun c hc => absurd hc (List.not_mem_nil c))

lemma renderNat_ne_nil (n : Nat) : renderNat n ≠ [] :=
  natDigitsAux_ne_nil (n + 1) n [] (Or.inl (Nat.succ_pos n))

lemma natDigitsAux_foldl :
    ∀ (f n : Nat) (acc : List Char) (A : Nat), n < f →
      ∃ k, List.foldl (fun a c => a * 10 + (c.toNat - 48)) A
          (natDigitsAux f n acc) =
        List.foldl (fun a c => a * 10 + (c.toNat - 48))
          (A * 10 ^ k + n) acc := by
  intro f
  induction f with
  | zero => intro n acc A h; omega
  | succ f ih =>
    intro n acc A h
    rw [natDigitsAux]
    by_cases hn : n < 10
    · rw [if_pos hn]
      refine ⟨1, ?_⟩
      rw [List.foldl_cons, digitChar_val hn]
      norm_num
    · rw [if_neg hn]
      have hdiv : n / 10 < n := Nat.div_lt_self (by omega) (by omega)
      obtain ⟨k, hk⟩ := ih (n / 10) (Nat.digitChar (n % 10) :: acc) A
        (by omega)
      refine ⟨k + 1, ?_⟩
      rw [hk, List.foldl_cons, digitChar_val (Nat.mod_lt n (by omega))]
      have key : (A * 10 ^ k + n / 10) * 10 + n % 10 =
          A * 10 ^ (k + 1) + n := by
        rw [pow_succ, ← Nat.mul_assoc]
        generalize A * 10 ^ k = B
        omega
      rw [key]

lemma renderNat_foldl (n : Nat) :
    List.foldl (fun a c => a * 10 + (c.toNat - 48)) 0 (renderNat n) = n := by
  obtain ⟨k, hk⟩ := natDigitsAux_foldl (n + 1) n [] 0 (Nat.lt_succ_self n)
  rw [renderNat, hk]
  simp

lemma parseNatAux_spec :
    ∀ (ds : List Char) (rest : List Char) (acc : Nat),
      (∀ c ∈ ds, c.isDigit = true) → delimB rest = true →
      parseNatAux (ds ++ rest) acc =
        (List.foldl (fun a c => a * 10 + (c.toNat - 48)) acc ds, rest) := by
  intro ds
  induction ds with
  | nil =>
    intro rest acc _ hrest
    cases rest with
    | nil => rfl
    | cons c r =>
      rw [delimB] at hrest
      simp only [List.nil_append, parseNatAux, List.foldl_nil]
      rw [if_neg]
      intro hd
      rw [hd] at hrest
      exact absurd hrest (by decide)
  | cons c ds ih =>
    intro rest acc hds hrest
    have hc : c.isDigit = true := hds c (List.mem_cons_self c ds)
    rw [List.cons_append, parseNatAux, if_pos hc, List.foldl_cons]
    exact ih rest _ (fun c2 hc2 => hds c2 (List.mem_cons_of_mem c hc2)) hrest

lemma parseStrBody_escStr :
    ∀ (s rest : List Char),
      parseStrBody (escStr s ++ ('"' :: rest)) = some (s, rest) := by
  intro s
  induction s with
  | nil =>
    intro rest
    rw [escStr, List.nil_append, parseStrBody.eq_def]
    simp
  | cons c cs ih =>
    intro rest
    rw [escStr, escChar]
    by_cases hc : c = '"' ∨ c = '\\'
    · rw [if_pos hc]
      have hbs : ('\\' : Char) ≠ '"' := by decide
      simp only [List.cons_append, List.append_assoc, List.nil_append]
      rw [parseStrBody.eq_def]
      simp only [if_neg hbs, if_pos rfl, if_true, ih rest]
    · rw [if_neg hc]
      push_neg at hc
      simp only [List.cons_append, List.nil_append]
      rw [parseStrBody.eq_def]
      simp only [if_neg hc.1, if_neg hc.2, ih rest]

lemma delimB_cons_not_digit {c : Char} (h : c.isDigit = false)
    (cs : List Char) : delimB (c :: cs) = true := by
  rw [delimB, h]
  rfl

lemma delimB_renderElems (xs : List Json) (rest : List Char) :
    delimB (renderElems xs ++ (']' :: rest)) = true := by
  cases xs with
  | nil =>
    rw [renderElems, List.nil_append]
    exact delimB_cons_not_digit (by decide) _
  | cons x xs =>
    rw [renderElems, List.cons_append]
    exact delimB_cons_not_digit (by decide) _

lemma delimB_renderMembers (kvs : List (String × Json)) (rest : List Char) :
    delimB (renderMembers kvs ++ ('\x7d' :: rest)) = true := by
  cases kvs with
  | nil =>
    rw [renderMembers, List.nil_append]
    exact delimB_cons_not_digit (by decide) _
  | cons kv kvs =>
    rw [renderMembers, List.cons_append]
    exact delimB_cons_not_digit (by decide) _

lemma sizeJ_pos (v : Json) : 1 ≤ sizeJ v := by
  cases v <;> rw [sizeJ] <;> omega

lemma renderVal_cons (v : Json) :
    ∃ c cs, renderVal v = c :: cs ∧ c ≠ ']' ∧ c ≠ '\x7d' := by
  cases v with
  | str s => exact ⟨'"', _, by rw [renderVal], by decide, by decide⟩
  | nat n =>
    obtain ⟨c, cs, hc⟩ : ∃ c cs, renderNat n = c :: cs := by
      cases h : renderNat n with
      | nil => exact absurd h (renderNat_ne_nil n)
      | cons c cs => exact ⟨c, cs, rfl⟩
    have hcd : c.isDigit = true := by
      refine renderNat_all_digits n c ?_
      rw [hc]
      exact List.mem_cons_self c cs
    refine ⟨c, cs, by rw [renderVal, hc], ?_, ?_⟩ <;> intro e <;>
      rw [e] at hcd <;> exact absurd hcd (by decide)
  | bool b =>
    cases b
    · exact ⟨'f', _, by rw [renderVal]; rfl, by decide, by decide⟩
    · exact ⟨'t', _, by rw [renderVal]; rfl, by decide, by decide⟩
  | arr xs =>
    cases xs with
    | nil => exact ⟨'[', _, by rw [renderVal], by decide, by decide⟩
    | cons x xs => exact ⟨'[', _, by rw [renderVal], by decide, by decide⟩
  | obj kvs =>
    cases kvs with
    | nil => exact ⟨'\x7b', _, by rw [renderVal], by decide, by decide⟩
    | cons kv kvs =>
      exact ⟨'\x7b', _, by rw [renderVal], by decide, by decide⟩

lemma parseVal_renderNat (f : Nat) (n : Nat) (rest : List Char)
    (hrest : delimB rest = true) :
    parseVal (f + 1) (renderNat n ++ rest) = some (.nat n, rest) := by
  obtain ⟨c, cs, hc⟩ : ∃ c cs, renderNat n = c :: cs := by
    cases h : renderNat n with
    | nil => exact absurd h (renderNat_ne_nil n)
    | cons c cs => exact ⟨c, cs, rfl⟩
  have hcd : c.isDigit = true := by
    refine renderNat_all_digits n c ?_
    rw [hc]
    exact List.mem_cons_self c cs
  have hds : ∀ x ∈ renderNat n, x.isDigit = true := renderNat_all_digits n
  rw [hc] at hds ⊢
  rw [List.cons_append]
  have h1 : c ≠ '"' := by
    intro e; rw [e] at hcd; exact absurd hcd (by decide)
  have h2 : c ≠ '[' := by
    intro e; rw [e] at hcd; exact absurd hcd (by decide)
  have h3 : c ≠ '\x7b' := by
    intro e; rw [e] at hcd; exact absurd hcd (by decide)
  have h4 : c ≠ 't' := by
    intro e; rw [e] at hcd; exact absurd hcd (by decide)
  have h5 : c ≠ 'f' := by
    intro e; rw [e] at hcd; exact absurd hcd (by decide)
  have hp : parseNatAux ((c :: cs) ++ rest) 0 =
      (List.foldl (fun a c => a * 10 + (c.toNat - 48)) 0 (c :: cs), rest) :=
    parseNatAux_spec (c :: cs) rest 0 hds hrest
  rw [List.cons_append] at hp
  have hfold :
      List.foldl (fun a c => a * 10 + (c.toNat - 48)) 0 (c :: cs) = n := by
    have hf := renderNat_foldl n
    rw [hc] at hf
    exact hf
  simp [parseVal, h1, h2, h3, h4, h5, hcd, hp, hfold]

/-- The serializer and the fuel-indexed parser are inverse, with any
delimited remainder, given enough fuel. -/
theorem parse_render (f : Nat) :
    (∀ v rest, sizeJ v ≤ f → delimB rest = true →
      parseVal f (renderVal v ++ rest) = some (v, rest))
    ∧ (∀ xs rest, sizeL xs + 1 ≤ f →
      parseElems f (renderElems xs ++ (']' :: rest)) = some (xs, rest))
    ∧ (∀ kv rest, sizeJ kv.2 + 1 ≤ f → delimB rest = true →
      parseMember f (renderMember kv ++ rest) = some (kv, rest))
    ∧ (∀ kvs rest, sizeM kvs + 1 ≤ f →
      parseMembers f (renderMembers kvs ++ ('\x7d' :: rest)) =
        some (kvs, rest)) := by
  induction f with
  | zero =>
    refine ⟨fun v rest hs _ => ?_, fun xs rest hs => ?_,
      fun kv rest hs _ => ?_, fun kvs rest hs => ?_⟩
    · have := sizeJ_pos v; omega
    · omega
    · have := sizeJ_pos kv.2; omega
    · omega
  | succ f ih =>
    obtain ⟨ihV, ihE, ihM, ihMs⟩ := ih
    refine ⟨?_, ?_, ?_, ?_⟩
    · intro v rest hs hrest
      cases v with
      | str s =>
        cases s with
        | mk d =>
          rw [renderVal, List.cons_append, List.append_assoc,
            List.singleton_append]
          simp [parseVal, parseStrBody_escStr]
      | nat n => exact parseVal_renderNat f n rest hrest
      | bool b => cases b <;> (rw [renderVal]; simp [parseVal])
      | arr xs =>
        cases xs with
        | nil => rw [renderVal]; simp [parseVal]
        | cons x xs =>
          rw [sizeJ, sizeL] at hs
          have hx1 := sizeJ_pos x
          obtain ⟨c2, cs2, hx, hne, -⟩ := renderVal_cons x
          have hv := ihV x (renderElems xs ++ (']' :: rest)) (by omega)
            (delimB_renderElems xs rest)
          have he := ihE xs rest (by omega)
          rw [hx] at hv
          rw [renderVal, hx]
          simp only [List.cons_append, List.append_assoc,
            List.singleton_append] at hv ⊢
          simp [parseVal, hne, hv, he]
      | obj kvs =>
        cases kvs with
        | nil => rw [renderVal]; simp [parseVal]
        | cons kv kvs =>
          rw [sizeJ, sizeM] at hs
          have hx1 := sizeJ_pos kv.2
          have hm := ihM kv (renderMembers kvs ++ ('\x7d' :: rest))
            (by omega) (delimB_renderMembers kvs rest)
          have hms := ihMs kvs rest (by omega)
          obtain ⟨k, v⟩ := kv
          obtain ⟨d⟩ := k
          rw [renderMember] at hm
          rw [renderVal, renderMember]
          simp only [List.cons_append, List.append_assoc,
            List.singleton_append] at hm ⊢
          simp [parseVal, hm, hms]
    · intro xs rest hs
      cases xs with
      | nil => rw [renderElems, List.nil_append]; simp [parseElems]
      | cons x xs =>
        rw [sizeL] at hs
        have hx1 := sizeJ_pos x
        have hv := ihV x (renderElems xs ++ (']' :: rest)) (by omega)
          (delimB_renderElems xs rest)
        have he := ihE xs rest (by omega)
        rw [renderElems]
        simp only [List.cons_append, List.append_assoc,
          List.singleton_append] at hv ⊢
        simp [parseElems, hv, he]
    · intro kv rest hs hrest
      obtain ⟨k, v⟩ := kv
      have hv := ihV v rest
        (by have hs2 : sizeJ v + 1 ≤ f + 1 := hs; omega) hrest
      obtain ⟨d⟩ := k
      rw [renderMember]
      simp only [List.cons_append, List.append_assoc,
        List.singleton_append] at hv ⊢
      simp [parseMember, parseStrBody_escStr, hv]
    · intro kvs rest hs
      cases kvs with
      | nil => rw [renderMembers, List.nil_append]; simp [parseMembers]
      | cons kv kvs =>
        rw [sizeM] at hs
        have hx1 := sizeJ_pos kv.2
        have hm := ihM kv (renderMembers kvs ++ ('\x7d' :: rest))
          (by omega) (delimB_renderMembers kvs rest)
        have hms := ihMs kvs rest (by omega)
        rw [renderMembers]
        simp only [List.cons_append, List.append_assoc,
          List.singleton_append] at hm ⊢
        simp [parseMembers, hm, hms]

lemma size_le_render (f : Nat) :
    (∀ v, sizeJ v ≤ f → sizeJ v ≤ (renderVal v).length)
    ∧ (∀ xs, sizeL xs ≤ f → sizeL xs ≤ (renderElems xs).length)
    ∧ (∀ kvs, sizeM kvs ≤ f → sizeM kvs ≤ (renderMembers kvs).length) := by
  induction f with
  | zero =>
    refine ⟨fun v hs => ?_, fun xs hs => ?_, fun kvs hs => ?_⟩
    · have := sizeJ_pos v; omega
    · omega
    · omega
  | succ f ih =>
    obtain ⟨ihV, ihE, ihMs⟩ := ih
    refine ⟨fun v hs => ?_, fun xs hs => ?_, fun kvs hs => ?_⟩
    · cases v with
      | str s =>
        rw [sizeJ, renderVal]
        simp
      | nat n =>
        rw [sizeJ, renderVal]
        have := List.length_pos.2 (renderNat_ne_nil n)
        omega
      | bool b =>
        cases b <;> rw [sizeJ, renderVal] <;> simp
      | arr xs =>
        cases xs with
        | nil => rw [sizeJ, sizeL, renderVal]; simp
        | cons x xs =>
          rw [sizeJ, sizeL] at hs ⊢
          have hx1 := sizeJ_pos x
          have h1 := ihV x (by omega)
          have h2 := ihE xs (by omega)
          rw [renderVal]
          simp only [List.length_cons, List.length_append,
            List.length_singleton]
          omega
      | obj kvs =>
        cases kvs with
        | nil => rw [sizeJ, sizeM, renderVal]; simp
        | cons kv kvs =>
          rw [sizeJ, sizeM] at hs ⊢
          have hx1 := sizeJ_pos kv.2
          have h1 := ihV kv.2 (by omega)
          have h2 := ihMs kvs (by omega)
          obtain ⟨k, v⟩ := kv
          rw [renderVal, renderMember]
          simp only [List.length_cons, List.length_append,
            List.length_singleton] at h1 h2 ⊢
          omega
    · cases xs with
      | nil => rw [sizeL, renderElems]; omega
      | cons x xs =>
        rw [sizeL] at hs ⊢
        have hx1 := sizeJ_pos x
        have h1 := ihV x (by omega)
        have h2 := ihE xs (by omega)
        rw [renderElems]
        simp only [List.length_cons, List.length_append]
        omega
    · cases kvs with
      | nil => rw [sizeM, renderMembers]; omega
      | cons kv kvs =>
        rw [sizeM] at hs ⊢
        have hx1 := sizeJ_pos kv.2
        have h1 := ihV kv.2 (by omega)
        have h2 := ihMs kvs (by omega)
        obtain ⟨k, v⟩ := kv
        rw [renderMembers, renderMember]
        simp only [List.length_cons, List.length_append] at h1 h2 ⊢
        omega

/-- Serializing any payload and parsing it back restores it exactly. -/
theorem jsonLoads_jsonDumps (v : Json) : jsonLoads (jsonDumps v) = some v := by
  have hsz : sizeJ v ≤ (renderVal v).length :=
    (size_le_render (sizeJ v)).1 v le_rfl
  have h := (parse_render ((renderVal v).length + 1)).1 v [] (by omega) rfl
  rw [List.append_nil] at h
  rw [jsonLoads, jsonDumps]
  simp only [String.data]
  rw [h]

/-- C6.  For every env map, secrets map, image URI, listen port and log
group name, the composed container payload is a JSON array holding
exactly one object with the documented keys, port mappings equal to the
listen port on both sides, insertion-ordered environment and secrets
entries and an awslogs configuration; serializing and deserializing it
is lossless, and the stated concrete instance round-trips to the stated
environment and secrets entries. -/
theorem spec_C6 (image lg region : String) (port : Nat)
    (env secrets : List (String × String)) :
    jsonLoads (jsonDumps ( container_def image lg env secrets port region)) =
      some ( container_def image lg env secrets port region)
    ∧ (∃ fields,
        container_def image lg env secrets port region = .arr [.obj fields]
        ∧ fields.map Prod.fst =
            ["name", "image", "essential", "portMappings", "environment",
             "secrets", "logConfiguration"]
        ∧ List.lookup "name" fields = some (.str "app")
        ∧ List.lookup "image" fields = some (.str image)
        ∧ List.lookup "essential" fields = some (.bool true)
        ∧ List.lookup "portMappings" fields = some (.arr [.obj
            [("containerPort", .nat port), ("hostPort", .nat port),
             ("protocol", .str "tcp")]])
        ∧ List.lookup "environment" fields = some (.arr (env.map (fun kv =>
            .obj [("name", .str kv.1), ("value", .str kv.2)])))
        ∧ List.lookup "secrets" fields = some (.arr (secrets.map (fun kv =>
            .obj [("name", .str kv.1), ("valueFrom", .str kv.2)])))
        ∧ List.lookup "logConfiguration" fields = some (.obj
            [("logDriver", .str "awslogs"),
             ("options", .obj
               [("awslogs-group", .str lg),
                ("awslogs-region", .str region),
                ("awslogs-stream-prefix", .str "app")])]))
    ∧ jsonLoads (jsonDumps ( container_def "repo@sha256:deadbeef" lg
          [("MODEL", "gpt-4o")] [("OPENAI_API_KEY", "arn:secret:1")]
          8080 region)) =
        some (.arr [.obj [
          ("name", .str "app"),
          ("image", .str "repo@sha256:deadbeef"),
          ("essential", .bool true),
          ("portMappings", .arr [.obj
            [("containerPort", .nat 8080), ("hostPort", .nat 8080),
             ("protocol", .str "tcp")]]),
          ("environment", .arr [.obj
            [("name", .str "MODEL"), ("value", .str "gpt-4o")]]),
          ("secrets", .arr [.obj
            [("name", .str "OPENAI_API_KEY"),
             ("valueFrom", .str "arn:secret:1")]]),
          ("logConfiguration", .obj
            [("logDriver", .str "awslogs"),
             ("options", .obj
               [("awslogs-group", .str lg),
                ("awslogs-region", .str region),
                ("awslogs-stream-prefix", .str "app")])])]]) :=
  ⟨jsonLoads_jsonDumps _,
   ⟨_, rfl, rfl, rfl, rfl, rfl, rfl, rfl, rfl, rfl⟩,
   jsonLoads_jsonDumps _⟩

/-- C2 (amended).  Neither planning nor the payload builder checks for
keys shared between `env` and `secrets`: a descriptor with an
overlapping key is planned successfully, and the composed container
payload carries the key both in its `environment` list and in its
`secrets` list (source lines 48-49 read the two maps unchecked, and
lines 303-323 emit both lists without validation). -/
theorem spec_C2 (name : String) (a : ContainerAppArgs) (azs : List String)
    (k : String)
    (henv : k ∈ a.env.map Prod.fst) (hsec : k ∈ a.secrets.map Prod.fst)
    (hsrc : truthyS a.app_path = true ∨ truthyS a.image = true) :
    (plan name a azs).isOk = true
    ∧ (∀ image lg region port, ∃ fields v arn,
        container_def image lg a.env a.secrets port region =
          .arr [.obj fields]
        ∧ List.lookup "environment" fields = some (.arr (a.env.map (fun kv =>
            .obj [("name", .str kv.1), ("value", .str kv.2)])))
        ∧ List.lookup "secrets" fields =
            some (.arr (a.secrets.map (fun kv =>
              .obj [("name", .str kv.1), ("valueFrom", .str kv.2)])))
        ∧ (Json.obj [("name", .str k), ("value", .str v)]) ∈
            a.env.map (fun kv =>
              Json.obj [("name", .str kv.1), ("value", .str kv.2)])
        ∧ (Json.obj [("name", .str k), ("valueFrom", .str arn)]) ∈
            a.secrets.map (fun kv =>
              Json.obj [("name", .str kv.1), ("valueFrom", .str kv.2)])) := by
  constructor
  · rcases hsrc with h | h <;> simp [plan, h, Except.isOk, Except.toBool]
  · intro image lg region port
    obtain ⟨⟨k1, v⟩, hv, hk1⟩ := List.mem_map.1 henv
    obtain ⟨⟨k2, arn⟩, ha, hk2⟩ := List.mem_map.1 hsec
    dsimp at hk1 hk2
    subst hk1
    refine ⟨_, v, arn, rfl, rfl, rfl, ?_, ?_⟩
    · exact List.mem_map_of_mem _ hv
    · rw [← hk2]
      exact List.mem_map_of_mem _ ha

/-- C2 counterexample: a descriptor whose `env` and `secrets` share the
key `SHARED_KEY` is accepted — planning does not fail with any
key-collision error — so the claim is false on the code. -/
theorem spec_C2_counterexample :
    (plan "app"
      ⟨none, 80, none, none, none, none, none, none,
        [("SHARED_KEY", "from-env")], [("SHARED_KEY", "from-secrets")],
        none, some "nginx:latest"⟩
      ["us-east-1a", "us-east-1b"]).isOk = true := by
  decide

/-- C2 witness: the amended theorem applied to a concrete descriptor with
the overlapping key `OPENAI_API_KEY`. -/
theorem spec_C2_witness :
    (plan "app"
      ⟨none, 80, none, none, none, none, none, none,
        [("OPENAI_API_KEY", "plain")], [("OPENAI_API_KEY", "secret")],
        none, some "nginx:latest"⟩
      ["us-east-1a", "us-east-1b"]).isOk = true :=
  (spec_C2 "app"
    ⟨none, 80, none, none, none, none, none, none,
      [("OPENAI_API_KEY", "plain")], [("OPENAI_API_KEY", "secret")],
      none, some "nginx:latest"⟩
    ["us-east-1a", "us-east-1b"] "OPENAI_API_KEY"
    (by decide) (by decide) (Or.inr (by decide))).1
